import Mathlib

/-!
Shallow embedding of the timing-and-bus core of the vAmiga emulator
(custom-chip register file, interrupt logic, memory map, Denise sprite
and colour registers, Blitter word masks), together with proofs of the
behavioural properties stated for these components.

Machine integers are modelled as Nat; 16-bit registers carry the
invariant of being smaller than 2^16 where it matters, and C bitwise
complement on a 16-bit value is rendered as XOR with 0xFFFF.
-/

set_option linter.unusedVariables false

namespace VAmiga

/-! ### General bit-level helper lemmas -/

/-- Bits of an OR are zero exactly when both operands are zero. -/
theorem lor_eq_zero_iff (a b : Nat) : a ||| b = 0 ↔ a = 0 ∧ b = 0 := by
  constructor
  · intro h
    constructor <;> apply Nat.eq_of_testBit_eq <;> intro i <;>
      have hi := congrArg (fun t => Nat.testBit t i) h <;>
      simp only [Nat.testBit_or, Nat.zero_testBit, Bool.or_eq_false_iff] at hi <;>
      simp [hi.1, hi.2]
  · rintro ⟨ha, hb⟩
    simp [ha, hb]

/-- AND with a constant whose low k bits are clear vanishes on numbers
below 2 to the k. -/
theorem and_eq_zero_of_high (m g k : Nat) (hm : m < 2 ^ k)
    (hg : ∀ i < k, g.testBit i = false) : m &&& g = 0 := by
  apply Nat.eq_of_testBit_eq
  intro i
  simp only [Nat.testBit_and, Nat.zero_testBit]
  rcases Nat.lt_or_ge i k with h | h
  · rw [hg i h]
    simp
  · rw [Nat.testBit_lt_two_pow (lt_of_lt_of_le hm (Nat.pow_le_pow_right (by norm_num) h))]
    simp

/-- AND of two numbers sharing a set bit is nonzero. -/
theorem and_ne_zero_of_bit (m g b : Nat) (hmb : m.testBit b = true)
    (hgb : g.testBit b = true) : m &&& g ≠ 0 := by
  intro h
  have hb := congrArg (fun t => Nat.testBit t b) h
  simp only [Nat.testBit_and, Nat.zero_testBit] at hb
  rw [hmb, hgb] at hb
  simp at hb

/-! ### Paula: interrupt registers (src/Amiga/Computer/Paula/Paula.cpp)

The interrupt state of Paula consists of the two 16-bit registers
INTREQ (pending interrupts) and INTENA (enabled interrupts). -/

structure PaulaState where
  intreq : Nat
  intena : Nat

/-- Paula::pokeINTREQ:
if (value & 0x8000) intreq |= (value & 0x7FFF); else intreq &= ~value;
(the register is uint16_t, so the C complement acts as XOR with 0xFFFF). -/
def pokeINTREQ (p : PaulaState) (value : Nat) : PaulaState :=
  if value &&& 0x8000 ≠ 0 then
    { p with intreq := p.intreq ||| (value &&& 0x7FFF) }
  else
    { p with intreq := p.intreq &&& (0xFFFF ^^^ value) }

/-- Paula::pokeINTENA:
if (value & 0x8000) intena |= (value & 0x7FFF); else intena &= ~value; -/
def pokeINTENA (p : PaulaState) (value : Nat) : PaulaState :=
  if value &&& 0x8000 ≠ 0 then
    { p with intena := p.intena ||| (value &&& 0x7FFF) }
  else
    { p with intena := p.intena &&& (0xFFFF ^^^ value) }

/-- Body of Paula::interruptLevel on the local variable
mask = intreq & intena (the if-cascade of the source function). -/
def interruptLevelOfMask (mask : Nat) : Nat :=
  if mask &&& 0b0110000000000000 ≠ 0 then 6
  else if mask &&& 0b0001100000000000 ≠ 0 then 5
  else if mask &&& 0b0000011110000000 ≠ 0 then 4
  else if mask &&& 0b0000000001110000 ≠ 0 then 3
  else if mask &&& 0b0000000000001000 ≠ 0 then 2
  else if mask &&& 0b0000000000000111 ≠ 0 then 1
  else 0

/-- Paula::interruptLevel: computes mask = intreq & intena and runs the
priority cascade on it. -/
def interruptLevel (p : PaulaState) : Nat :=
  interruptLevelOfMask (p.intreq &&& p.intena)

/-- Level of the interrupt group containing bit b, as the specification
states it: bits 13..14 give level 6, 11..12 give 5, 7..10 give 4,
4..6 give 3, bit 3 gives 2, bits 0..2 give 1. -/
def levelOfBit (b : Nat) : Nat :=
  if 13 ≤ b ∧ b ≤ 14 then 6
  else if 11 ≤ b ∧ b ≤ 12 then 5
  else if 7 ≤ b ∧ b ≤ 10 then 4
  else if 4 ≤ b ∧ b ≤ 6 then 3
  else if b = 3 then 2
  else if b ≤ 2 then 1
  else 0

/-- The priority cascade only looks at the low 15 bits of the mask. -/
theorem interruptLevelOfMask_masked (m : Nat) :
    interruptLevelOfMask (m &&& 0x7FFF) = interruptLevelOfMask m := by
  unfold interruptLevelOfMask
  simp only [Nat.and_assoc,
    show (0x7FFF &&& 0x6000 : Nat) = 0x6000 from rfl,
    show (0x7FFF &&& 0x1800 : Nat) = 0x1800 from rfl,
    show (0x7FFF &&& 0x780 : Nat) = 0x780 from rfl,
    show (0x7FFF &&& 0x70 : Nat) = 0x70 from rfl,
    show (0x7FFF &&& 8 : Nat) = 8 from rfl,
    show (0x7FFF &&& 7 : Nat) = 7 from rfl]

/-- The cascade returns zero exactly when the low 15 bits of the mask
are all clear. -/
theorem interruptLevelOfMask_eq_zero_iff (m : Nat) :
    interruptLevelOfMask m = 0 ↔ m &&& 0x7FFF = 0 := by
  have hdecomp : m &&& 0x7FFF =
      (m &&& 0x6000) ||| ((m &&& 0x1800) ||| ((m &&& 0x780) |||
        ((m &&& 0x70) ||| ((m &&& 8) ||| (m &&& 7))))) := by
    rw [show (0x7FFF : Nat) = 0x6000 ||| (0x1800 ||| (0x780 ||| (0x70 ||| (8 ||| 7)))) from rfl]
    rw [Nat.and_or_distrib_left, Nat.and_or_distrib_left, Nat.and_or_distrib_left,
        Nat.and_or_distrib_left, Nat.and_or_distrib_left]
  rw [hdecomp, lor_eq_zero_iff, lor_eq_zero_iff, lor_eq_zero_iff, lor_eq_zero_iff,
      lor_eq_zero_iff]
  unfold interruptLevelOfMask
  split_ifs with h1 h2 h3 h4 h5 h6 <;> simp_all

/-- The cascade maps a mask whose highest set low-bit is b to the level
of the group of b. -/
theorem interruptLevelOfMask_highBit (m b : Nat)
    (hb : (m &&& 0x7FFF).testBit b = true)
    (hhi : ∀ j < 16, b < j → (m &&& 0x7FFF).testBit j = false) :
    interruptLevelOfMask m = levelOfBit b := by
  rw [← interruptLevelOfMask_masked m]
  have hlt15 : m &&& 0x7FFF < 2 ^ 15 :=
    lt_of_le_of_lt Nat.and_le_right (by norm_num)
  have hble : b ≤ 14 := by
    by_contra hgt
    have h1 : 2 ^ 15 ≤ 2 ^ b := Nat.pow_le_pow_right (by norm_num) (by omega)
    have h2 := Nat.testBit_implies_ge hb
    omega
  have hup : m &&& 0x7FFF < 2 ^ (b + 1) := by
    apply Nat.lt_pow_two_of_testBit
    intro i hi
    rcases Nat.lt_or_ge i 16 with h | h
    · exact hhi i h (by omega)
    · exact Nat.testBit_lt_two_pow
        (lt_of_lt_of_le hlt15 (Nat.pow_le_pow_right (by norm_num) (by omega)))
  interval_cases b
  all_goals {
    first
    | (have t1 : (m &&& 0x7FFF) &&& 0x6000 ≠ 0 :=
        and_ne_zero_of_bit _ _ _ hb (by decide)
       simp [interruptLevelOfMask, levelOfBit, t1])
    | (have t1 : (m &&& 0x7FFF) &&& 0x6000 = 0 :=
        and_eq_zero_of_high _ _ _ hup (by decide)
       have t2 : (m &&& 0x7FFF) &&& 0x1800 ≠ 0 :=
        and_ne_zero_of_bit _ _ _ hb (by decide)
       simp [interruptLevelOfMask, levelOfBit, t1, t2])
    | (have t1 : (m &&& 0x7FFF) &&& 0x6000 = 0 :=
        and_eq_zero_of_high _ _ _ hup (by decide)
       have t2 : (m &&& 0x7FFF) &&& 0x1800 = 0 :=
        and_eq_zero_of_high _ _ _ hup (by decide)
       have t3 : (m &&& 0x7FFF) &&& 0x780 ≠ 0 :=
        and_ne_zero_of_bit _ _ _ hb (by decide)
       simp [interruptLevelOfMask, levelOfBit, t1, t2, t3])
    | (have t1 : (m &&& 0x7FFF) &&& 0x6000 = 0 :=
        and_eq_zero_of_high _ _ _ hup (by decide)
       have t2 : (m &&& 0x7FFF) &&& 0x1800 = 0 :=
        and_eq_zero_of_high _ _ _ hup (by decide)
       have t3 : (m &&& 0x7FFF) &&& 0x780 = 0 :=
        and_eq_zero_of_high _ _ _ hup (by decide)
       have t4 : (m &&& 0x7FFF) &&& 0x70 ≠ 0 :=
        and_ne_zero_of_bit _ _ _ hb (by decide)
       simp [interruptLevelOfMask, levelOfBit, t1, t2, t3, t4])
    | (have t1 : (m &&& 0x7FFF) &&& 0x6000 = 0 :=
        and_eq_zero_of_high _ _ _ hup (by decide)
       have t2 : (m &&& 0x7FFF) &&& 0x1800 = 0 :=
        and_eq_zero_of_high _ _ _ hup (by decide)
       have t3 : (m &&& 0x7FFF) &&& 0x780 = 0 :=
        and_eq_zero_of_high _ _ _ hup (by decide)
       have t4 : (m &&& 0x7FFF) &&& 0x70 = 0 :=
        and_eq_zero_of_high _ _ _ hup (by decide)
       have t5 : (m &&& 0x7FFF) &&& 8 ≠ 0 :=
        and_ne_zero_of_bit _ _ _ hb (by decide)
       simp [interruptLevelOfMask, levelOfBit, t1, t2, t3, t4, t5])
    | (have t1 : (m &&& 0x7FFF) &&& 0x6000 = 0 :=
        and_eq_zero_of_high _ _ _ hup (by decide)
       have t2 : (m &&& 0x7FFF) &&& 0x1800 = 0 :=
        and_eq_zero_of_high _ _ _ hup (by decide)
       have t3 : (m &&& 0x7FFF) &&& 0x780 = 0 :=
        and_eq_zero_of_high _ _ _ hup (by decide)
       have t4 : (m &&& 0x7FFF) &&& 0x70 = 0 :=
        and_eq_zero_of_high _ _ _ hup (by decide)
       have t5 : (m &&& 0x7FFF) &&& 8 = 0 :=
        and_eq_zero_of_high _ _ _ hup (by decide)
       have t6 : (m &&& 0x7FFF) &&& 7 ≠ 0 :=
        and_ne_zero_of_bit _ _ _ hb (by decide)
       simp [interruptLevelOfMask, levelOfBit, t1, t2, t3, t4, t5, t6])
  }

/-- C2: Paula::interruptLevel returns 0 exactly when
(intreq AND intena AND 0x7FFF) is zero, and otherwise returns the level
of the group containing the highest set bit of the pending-and-enabled
mask (bits 13..14 give 6, 11..12 give 5, 7..10 give 4, 4..6 give 3,
bit 3 gives 2, bits 0..2 give 1). The highest set bit is characterised
by its bit being set and all higher bits being clear. -/
theorem interruptLevel_spec (req ena : Nat) :
    (interruptLevel ⟨req, ena⟩ = 0 ↔ req &&& ena &&& 0x7FFF = 0) ∧
    (∀ b, (req &&& ena &&& 0x7FFF).testBit b = true →
      (∀ j < 16, b < j → (req &&& ena &&& 0x7FFF).testBit j = false) →
      interruptLevel ⟨req, ena⟩ = levelOfBit b) := by
  constructor
  · exact interruptLevelOfMask_eq_zero_iff (req &&& ena)
  · intro b hb hhi
    exact interruptLevelOfMask_highBit (req &&& ena) b hb hhi

/-- Witness for C2 at req = 0x4008, ena = 0xFFFF: the highest
pending-and-enabled bit is 14, so the level is 6; and at req = 0x8000,
ena = 0x8000 the masked request bits vanish, so the level is 0. -/
theorem interruptLevel_spec_witness :
    interruptLevel ⟨0x4008, 0xFFFF⟩ = 6 ∧ interruptLevel ⟨0x8000, 0x8000⟩ = 0 := by
  constructor
  · have h := (interruptLevel_spec 0x4008 0xFFFF).2 14 (by decide)
      (by decide)
    rw [h]
    decide
  · exact (interruptLevel_spec 0x8000 0x8000).1.mpr (by decide)

/-- C3: writing INTREQ with bit 15 set ORs in the low 15 bits of the
value, writing with bit 15 clear ANDs the register with the complement
of the value; consequently writing 0x8000 OR bits and then bits leaves
INTREQ equal to prev AND NOT bits. -/
theorem pokeINTREQ_set_then_clear (p : PaulaState) (bits : Nat)
    (hb16 : bits < 65536) (hb15 : bits &&& 0x8000 = 0) :
    (pokeINTREQ (pokeINTREQ p (0x8000 ||| bits)) bits).intreq
        = p.intreq &&& (0xFFFF ^^^ bits) ∧
    (∀ q v, v &&& 0x8000 ≠ 0 →
      (pokeINTREQ q v).intreq = q.intreq ||| (v &&& 0x7FFF)) ∧
    (∀ q v, v &&& 0x8000 = 0 →
      (pokeINTREQ q v).intreq = q.intreq &&& (0xFFFF ^^^ v)) := by
  have hb16' : bits < 2 ^ 16 := by norm_num; omega
  have h15 : bits.testBit 15 = false := by
    have h := congrArg (fun t => Nat.testBit t 15) hb15
    simp only [Nat.testBit_and, Nat.zero_testBit] at h
    rw [show Nat.testBit 0x8000 15 = true by decide] at h
    simpa using h
  have hlow : bits < 2 ^ 15 := by
    apply Nat.lt_pow_two_of_testBit
    intro i hi
    rcases Nat.eq_or_lt_of_le hi with he | hgt
    · rw [← he]
      exact h15
    · exact Nat.testBit_lt_two_pow
        (lt_of_lt_of_le hb16' (Nat.pow_le_pow_right (by norm_num : 0 < 2) hgt))
  refine ⟨?_, ?_, ?_⟩
  · have hset : ((0x8000 : Nat) ||| bits) &&& 0x8000 ≠ 0 := by
      apply and_ne_zero_of_bit _ _ 15 _ (by decide)
      rw [Nat.testBit_or, show Nat.testBit 0x8000 15 = true by decide]
      simp
    have hmask : ((0x8000 : Nat) ||| bits) &&& 0x7FFF = bits := by
      rw [Nat.and_distrib_right]
      rw [show ((0x8000 : Nat) &&& 0x7FFF) = 0 from rfl]
      rw [show (0x7FFF : Nat) = 2 ^ 15 - 1 from rfl]
      rw [Nat.and_pow_two_sub_one_of_lt_two_pow hlow]
      simp
    have hbitsc : bits &&& (0xFFFF ^^^ bits) = 0 := by
      apply Nat.eq_of_testBit_eq
      intro i
      simp only [Nat.testBit_and, Nat.testBit_xor, Nat.zero_testBit]
      rcases Nat.lt_or_ge i 16 with h | h
      · have hf : Nat.testBit 0xFFFF i = true := by
          have ht := Nat.testBit_two_pow_sub_one 16 i
          norm_num at ht
          rw [ht]
          simp [h]
        rw [hf]
        cases hbi : bits.testBit i <;> simp [hbi]
      · rw [Nat.testBit_lt_two_pow
          (lt_of_lt_of_le hb16' (Nat.pow_le_pow_right (by norm_num : 0 < 2) h))]
        simp
    have hX : pokeINTREQ p (0x8000 ||| bits) =
        { intreq := p.intreq ||| bits, intena := p.intena } := by
      simp only [pokeINTREQ]
      rw [if_pos hset, hmask]
    rw [hX]
    simp only [pokeINTREQ]
    rw [if_neg (by simp [hb15])]
    simp only []
    rw [Nat.and_distrib_right, hbitsc]
    simp
  · intro q v hv
    simp [pokeINTREQ, hv]
  · intro q v hv
    simp [pokeINTREQ, hv]

/-- Witness for C3 at prev = 0xFFFF, bits = 0x00F0: the set-then-clear
sequence leaves INTREQ equal to 0xFF0F. -/
theorem pokeINTREQ_set_then_clear_witness :
    (pokeINTREQ (pokeINTREQ ⟨0xFFFF, 0⟩ (0x8000 ||| 0x00F0)) 0x00F0).intreq = 0xFF0F := by
  have h := (pokeINTREQ_set_then_clear ⟨0xFFFF, 0⟩ 0x00F0 (by decide) (by decide)).1
  rw [h]
  decide

/-! ### Memory: custom-chip register reads (src/Amiga/Computer/Memory.cpp)

Bus owners, as used in the sources under inspection. The full enum of
the bus arbiter lives in a header outside the inspected tree; only the
discrimination against BUS_NONE and the three template instantiations
of the access functions matter here. -/

inductive BusOwner where
  | BUS_NONE
  | BUS_CPU
  | BUS_COPPER
  | BUS_BLITTER
deriving DecidableEq

/-- Slice of the machine state read by Memory::peekCustom16 and
Memory::peekCustomFaulty16: the open-bus residue dataBus, the owner and
value of the current bus slot (agnus.busOwner[agnus.pos.h] and
agnus.busValue[agnus.pos.h]), and an oracle regvals giving the value
delivered by the sub-component peek for each readable register index.
The sub-component peeks and the write-back that peekCustomFaulty16
performs act on component state outside this slice; neither touches
dataBus, busOwner or busValue. -/
structure CustomPeekCtx where
  dataBus : Nat
  busOwner : BusOwner
  busValue : Nat
  regvals : Nat → Nat

/-- Memory::peekCustomFaulty16, the value it returns: the last data-bus
value is written into the addressed register (a state change outside
this slice), then the current slot's DMA value is returned if a DMA
owner is present, and 0xFFFF otherwise. -/
def peekCustomFaulty16 (s : CustomPeekCtx) : Nat :=
  if s.busOwner ≠ BusOwner.BUS_NONE then s.busValue else 0xFFFF

/-- Register indices (addr >> 1) & 0xFF with an explicit case in the
switch of Memory::peekCustom16: 0x000..0x01E (indices 0..15) and
DENISEID at 0x07C (index 0x3E). -/
def isReadableCustomReg (reg : Nat) : Bool :=
  reg ≤ 0x0F || reg = 0x3E

/-- Memory::peekCustom16: dispatches on (addr >> 1) & 0xFF; index 0
(BLTDDAT) yields 0x00, the other readable indices yield the
sub-component peek, everything else falls to peekCustomFaulty16; the
result is placed on dataBus and returned. -/
def peekCustom16 (s : CustomPeekCtx) (addr : Nat) : Nat × CustomPeekCtx :=
  let reg := (addr >>> 1) &&& 0xFF
  let result :=
    if reg = 0 then 0x00
    else if isReadableCustomReg reg then s.regvals reg
    else peekCustomFaulty16 s
  (result, { s with dataBus := result })

/-- C1 counterexample context: dataBus = 1, a Blitter DMA in the current
slot with bus value 2. -/
def faultyCtxEx : CustomPeekCtx :=
  { dataBus := 1, busOwner := BusOwner.BUS_BLITTER, busValue := 2, regvals := fun _ => 0 }

/-- C1 (counterexample): reading the nonexistent register 0x1C0 in a
state with dataBus = 1 and current-slot DMA value 2 returns 2, not
dataBus OR-ed with the DMA value (which is 3). -/
theorem peekCustomFaulty_not_or :
    (peekCustom16 faultyCtxEx 0x1C0).1 ≠ faultyCtxEx.dataBus ||| faultyCtxEx.busValue := by
  decide

/-- C1 (amended): a read of a register without a case in peekCustom16
returns the current slot's DMA bus value when the slot has a bus owner
and 0xFFFF otherwise (the previous dataBus value is written into the
addressed register, not OR-ed into the result), and dataBus is updated
to the returned value. -/
theorem peekCustomFaulty_spec (s : CustomPeekCtx) (addr : Nat)
    (hreg : isReadableCustomReg ((addr >>> 1) &&& 0xFF) = false) :
    (peekCustom16 s addr).1
        = (if s.busOwner = BusOwner.BUS_NONE then 0xFFFF else s.busValue) ∧
    (peekCustom16 s addr).2.dataBus = (peekCustom16 s addr).1 := by
  have hne : ((addr >>> 1) &&& 0xFF) ≠ 0 := by
    intro h0
    rw [h0] at hreg
    simp [isReadableCustomReg] at hreg
  constructor
  · by_cases h : s.busOwner = BusOwner.BUS_NONE <;>
      simp [peekCustom16, hne, hreg, peekCustomFaulty16, h]
  · rfl

/-- Witness for C1 (amended) at the counterexample context and at a
quiet-bus context. -/
theorem peekCustomFaulty_spec_witness :
    (peekCustom16 faultyCtxEx 0x1C0).1 = 2 ∧
    (peekCustom16 { faultyCtxEx with busOwner := BusOwner.BUS_NONE } 0x1C0).1 = 0xFFFF := by
  constructor
  · have h := (peekCustomFaulty_spec faultyCtxEx 0x1C0 (by decide)).1
    rw [h]
    decide
  · have h := (peekCustomFaulty_spec
      { faultyCtxEx with busOwner := BusOwner.BUS_NONE } 0x1C0 (by decide)).1
    rw [h]
    decide

/-! ### Memory: address decoder state and the spypeek path -/

/-- Memory sources, the page-descriptor discriminants of the 256-entry
memSrc table (Memory::updateMemSrcTable). -/
inductive MemorySource where
  | MEM_UNMAPPED
  | MEM_CHIP
  | MEM_FAST
  | MEM_CIA
  | MEM_SLOW
  | MEM_RTC
  | MEM_OCS
  | MEM_AUTOCONF
  | MEM_ROM
  | MEM_WOM
  | MEM_EXT
deriving DecidableEq

/-- Slice of the machine state used by the 16-bit access paths of the
memory class: the page table memSrc, the open-bus residue dataBus, and
oracles for the primitive readers (READ_CHIP_16, READ_FAST_16, ...,
peekCIA16, peekRTC16, peekCustom16, peekAutoConf16 and their spypeek
counterparts), each keyed by the address handed to it by the source. -/
structure Mem16State where
  memSrc : Nat → MemorySource
  dataBus : Nat
  chipRead : Nat → Nat
  fastRead : Nat → Nat
  ciaRead : Nat → Nat
  slowRead : Nat → Nat
  rtcRead : Nat → Nat
  ocsRead : Nat → Nat
  autoRead : Nat → Nat
  romRead : Nat → Nat
  womRead : Nat → Nat
  extRead : Nat → Nat
  ciaSpyRead : Nat → Nat
  rtcSpyRead : Nat → Nat
  autoSpyRead : Nat → Nat

/-- Memory::spypeekCustom16: an empty switch over addr & 0x1FE followed
by return 42 — the debugger inspection read of the custom register
window is the constant 42, independent of the address and of any
machine state. -/
def spypeekCustom16 (addr : Nat) : Nat := 42

/-- Memory::spypeek16: side-effect-free 16-bit read. The odd-address
check in the source is commented out; the address is truncated to 24
bits and dispatched through the page table. The MEM_RTC arm calls the
8-bit spypeekRTC8 in the source; its value is the rtcSpyRead oracle. -/
def spypeek16 (s : Mem16State) (addr : Nat) : Nat :=
  let addr := addr &&& 0xFFFFFF
  match s.memSrc (addr >>> 16) with
  | MemorySource.MEM_UNMAPPED => 0
  | MemorySource.MEM_CHIP => s.chipRead addr
  | MemorySource.MEM_FAST => s.fastRead addr
  | MemorySource.MEM_CIA => s.ciaSpyRead addr
  | MemorySource.MEM_SLOW => s.slowRead addr
  | MemorySource.MEM_RTC => s.rtcSpyRead addr
  | MemorySource.MEM_OCS => spypeekCustom16 addr
  | MemorySource.MEM_AUTOCONF => s.autoSpyRead addr
  | MemorySource.MEM_ROM => s.romRead addr
  | MemorySource.MEM_WOM => s.womRead addr
  | MemorySource.MEM_EXT => s.extRead addr

/-- C10: the debugger inspection read of the custom register window
returns the constant 42 for every address, and spypeek16 on a page
decoded as MEM_OCS is therefore the constant 42 as well, independent of
the entire machine state (spypeek16 also performs no state update, as
its type shows). -/
theorem spypeekCustom_constant :
    (∀ addr : Nat, spypeekCustom16 addr = 42) ∧
    (∀ (s s' : Mem16State) (addr addr' : Nat),
      s.memSrc ((addr &&& 0xFFFFFF) >>> 16) = MemorySource.MEM_OCS →
      s'.memSrc ((addr' &&& 0xFFFFFF) >>> 16) = MemorySource.MEM_OCS →
      spypeek16 s addr = 42 ∧ spypeek16 s addr = spypeek16 s' addr') := by
  refine ⟨fun _ => rfl, fun s s' addr addr' h h' => ⟨?_, ?_⟩⟩
  · simp only [spypeek16, h]
    rfl
  · simp only [spypeek16, h, h']
    rfl

/-- Memory state whose every page decodes to the custom register
window, used as witness context. -/
def ocsAllState : Mem16State :=
  { memSrc := fun _ => MemorySource.MEM_OCS
    dataBus := 0
    chipRead := fun _ => 0, fastRead := fun _ => 0, ciaRead := fun _ => 0
    slowRead := fun _ => 0, rtcRead := fun _ => 0, ocsRead := fun _ => 0
    autoRead := fun _ => 0, romRead := fun _ => 0, womRead := fun _ => 0
    extRead := fun _ => 0, ciaSpyRead := fun _ => 0, rtcSpyRead := fun _ => 0
    autoSpyRead := fun _ => 0 }

/-- Witness for C10: on an all-OCS page table, spypeek16 returns 42 at
address 0xDFF006 no matter the oracle values. -/
theorem spypeekCustom_constant_witness :
    spypeek16 ocsAllState 0xDFF006 = 42 ∧
    spypeek16 ocsAllState 0xDFF006 = spypeek16 ocsAllState 0xDFF180 := by
  exact spypeekCustom_constant.2 ocsAllState ocsAllState 0xDFF006 0xDFF180 rfl rfl

/-! ### Memory::updateMemSrcTable -/

/-- Configuration inputs of Memory::updateMemSrcTable: presence flags of
the ROM, WOM, chip RAM, extended ROM and real-time clock, the
configured region sizes, the start page of the extended ROM, the OVL
line (bit 0 of CIA-A port A) and the WOM lock. -/
structure MemConfig where
  hasRom : Bool
  hasWom : Bool
  hasChipRam : Bool
  hasExt : Bool
  chipSize : Nat
  slowSize : Nat
  fastSize : Nat
  extStart : Nat
  hasRtc : Bool
  ovl : Bool
  womIsLocked : Bool

/-- Effect of the source's for-loops writing v into pages
lo .. lo+n-1 of the page table. -/
def writeRange (t : Nat → MemorySource) (lo n : Nat) (v : MemorySource) :
    Nat → MemorySource :=
  fun i => if lo ≤ i ∧ i < lo + n then v else t i

/-- The OVL copy loop of updateMemSrcTable:
for (i = 0; i < 8 && memSrc[0xF8+i] != MEM_UNMAPPED; i++)
  memSrc[i] = memSrc[0xF8+i];
modelled with an explicit fuel of 8 iterations. -/
def ovlLoopAux : Nat → Nat → (Nat → MemorySource) → (Nat → MemorySource)
  | 0, _, t => t
  | fuel + 1, i, t =>
    if i < 8 ∧ t (0xF8 + i) ≠ MemorySource.MEM_UNMAPPED then
      ovlLoopAux fuel (i + 1) (fun j => if j = i then t (0xF8 + i) else t j)
    else t

def ovlLoop (t : Nat → MemorySource) : Nat → MemorySource :=
  ovlLoopAux 8 0 t

/-- Memory::updateMemSrcTable: rebuilds the 256-entry page table from
scratch. Note that chipRamPages is 32 whenever chip RAM is present,
independent of the configured chip size; the source's subsequent
mirroring branch (chipRamPages == 4 implies 8) can never fire. -/
def updateMemSrcTable (c : MemConfig) : Nat → MemorySource :=
  let memRom := if c.hasRom then MemorySource.MEM_ROM else MemorySource.MEM_UNMAPPED
  let memWom := if c.hasWom then MemorySource.MEM_WOM else memRom
  let chipRamPages := if c.hasChipRam then 32 else 0
  let chipRamPages := if chipRamPages = 4 then 8 else chipRamPages
  let slowRamPages := c.slowSize / 0x10000
  let fastRamPages := c.fastSize / 0x10000
  let extRomPages := if c.hasExt then 8 else 0
  let t := fun _ : Nat => MemorySource.MEM_UNMAPPED
  let t := writeRange t 0 chipRamPages MemorySource.MEM_CHIP
  let t := writeRange t 0x20 fastRamPages MemorySource.MEM_FAST
  let t := writeRange t 0xA0 32 MemorySource.MEM_CIA
  let t := writeRange t 0xC0 32 MemorySource.MEM_OCS
  let t := writeRange t 0xC0 slowRamPages MemorySource.MEM_SLOW
  let t := if c.hasRtc then writeRange t 0xDC 3 MemorySource.MEM_RTC else t
  let t := writeRange t 0xE8 8 MemorySource.MEM_AUTOCONF
  let t := writeRange t c.extStart extRomPages MemorySource.MEM_EXT
  let t := writeRange t 0xF8 8 memWom
  let t := if c.hasWom && !c.womIsLocked then writeRange t 0xF8 4 memRom else t
  if c.ovl then ovlLoop t else t

/-- Pages below the start of a written range are untouched by it. -/
theorem writeRange_lt (t : Nat → MemorySource) (lo n : Nat) (v : MemorySource)
    (i : Nat) (h : i < lo) : writeRange t lo n v i = t i := by
  unfold writeRange
  rw [if_neg]
  intro hc
  omega

/-- A conditionally applied range write is also invisible below its
start. -/
theorem ite_writeRange_lt (b : Bool) (t : Nat → MemorySource) (lo n : Nat)
    (v : MemorySource) (i : Nat) (h : i < lo) :
    (if b then writeRange t lo n v else t) i = t i := by
  cases b
  · simp
  · simp [writeRange_lt t lo n v i h]

/-- C4 (amended): with the OVL line low and the extended ROM window
outside the chip area, every page 0x00..0x1F decodes to Chip RAM
exactly when chip RAM is present — for every configured chip size, not
only 256 KiB; the table does not depend on the configured chip size at
all within this window. -/
theorem memSrcTable_chip_window (c : MemConfig) (hovl : c.ovl = false)
    (hext : 0x20 ≤ c.extStart) (i : Nat) (hi : i ≤ 0x1F) :
    (updateMemSrcTable c i = MemorySource.MEM_CHIP ↔ c.hasChipRam = true) := by
  unfold updateMemSrcTable
  rw [hovl]
  simp only [Bool.false_eq_true, if_false]
  rw [ite_writeRange_lt _ _ _ _ _ _ (by omega)]
  rw [writeRange_lt _ _ _ _ _ (by omega)]
  rw [writeRange_lt _ _ _ _ _ (by omega : i < c.extStart)]
  rw [writeRange_lt _ _ _ _ _ (by omega)]
  rw [ite_writeRange_lt _ _ _ _ _ _ (by omega)]
  rw [writeRange_lt _ _ _ _ _ (by omega)]
  rw [writeRange_lt _ _ _ _ _ (by omega)]
  rw [writeRange_lt _ _ _ _ _ (by omega)]
  rw [writeRange_lt _ _ _ _ _ (by omega)]
  cases hcr : c.hasChipRam
  · simp [writeRange]
  · simp [writeRange]
    omega

/-- Witness for C4 (amended) at a 512 KiB chip configuration: page 0x10
is Chip RAM. -/
theorem memSrcTable_chip_window_witness :
    updateMemSrcTable
      { hasRom := true, hasWom := false, hasChipRam := true, hasExt := false,
        chipSize := 0x80000, slowSize := 0, fastSize := 0, extStart := 0xE0,
        hasRtc := false, ovl := false, womIsLocked := false } 0x10
      = MemorySource.MEM_CHIP := by
  exact (memSrcTable_chip_window _ rfl (by norm_num) 0x10 (by norm_num)).mpr rfl

/-- C4 (counterexample): with 512 KiB of chip RAM (8 pages) the claim
puts pages 0x08..0x1F outside Chip RAM, yet the code decodes page 8 to
Chip RAM: chipRamPages is 32 whenever chip RAM is present. -/
theorem memSrcTable_chip_mirror_all_sizes :
    (updateMemSrcTable
      { hasRom := true, hasWom := false, hasChipRam := true, hasExt := false,
        chipSize := 0x80000, slowSize := 0, fastSize := 0, extStart := 0xE0,
        hasRtc := false, ovl := false, womIsLocked := false } 8
      = MemorySource.MEM_CHIP) ∧
    (0x80000 / 0x10000 = 8) ∧ (0x80000 ≠ 0x40000) := by
  refine ⟨?_, by norm_num, by norm_num⟩
  rfl

/-! ### Memory::peek16 and Memory::poke16 -/

/-- Memory::peek16, templated on the bus owner. An odd address is
reported with a warning (and an assert in debug builds) but is NOT
modified: the function continues with addr & 0xFFFFFF, low bit
included. The Copper and Blitter arms read chip memory unless the page
is unmapped; the CPU arm dispatches through the page table; an owner
outside the three instantiated cases falls through to return 0. -/
def peek16 (owner : BusOwner) (s : Mem16State) (addr : Nat) : Nat × Mem16State :=
  let addr := addr &&& 0xFFFFFF
  match owner with
  | BusOwner.BUS_COPPER =>
    let v := if s.memSrc (addr >>> 16) = MemorySource.MEM_UNMAPPED then 0
             else s.chipRead addr
    (v, { s with dataBus := v })
  | BusOwner.BUS_BLITTER =>
    let v := if s.memSrc (addr >>> 16) = MemorySource.MEM_UNMAPPED then 0
             else s.chipRead addr
    (v, { s with dataBus := v })
  | BusOwner.BUS_CPU =>
    match s.memSrc (addr >>> 16) with
    | MemorySource.MEM_UNMAPPED => (0, { s with dataBus := 0 })
    | MemorySource.MEM_CHIP => (s.chipRead addr, { s with dataBus := s.chipRead addr })
    | MemorySource.MEM_FAST => (s.fastRead addr, s)
    | MemorySource.MEM_CIA => (s.ciaRead addr, { s with dataBus := s.ciaRead addr })
    | MemorySource.MEM_SLOW => (s.slowRead addr, { s with dataBus := s.slowRead addr })
    | MemorySource.MEM_RTC => (s.rtcRead addr, { s with dataBus := s.rtcRead addr })
    | MemorySource.MEM_OCS => (s.ocsRead addr, { s with dataBus := s.ocsRead addr })
    | MemorySource.MEM_AUTOCONF => (s.autoRead addr, { s with dataBus := s.autoRead addr })
    | MemorySource.MEM_ROM => (s.romRead addr, s)
    | MemorySource.MEM_WOM => (s.womRead addr, s)
    | MemorySource.MEM_EXT => (s.extRead addr, s)
  | BusOwner.BUS_NONE => (0, s)

/-- Identifies the write primitive a 16-bit store was dispatched to. -/
inductive WriteTarget where
  | chipW
  | fastW
  | ciaW
  | slowW
  | rtcW
  | ocsW
  | autoW
  | romW
  | womW
deriving DecidableEq

/-- Memory::poke16, templated on the bus owner. As in peek16, an odd
address is only warned about and proceeds unmodified. The function
yields the state after the dataBus update together with the write
primitive invoked and the address and value handed to it (none for an
unmapped page or the read-only MEM_EXT arm). -/
def poke16 (owner : BusOwner) (s : Mem16State) (addr value : Nat) :
    Mem16State × Option (WriteTarget × Nat × Nat) :=
  let addr := addr &&& 0xFFFFFF
  match owner with
  | BusOwner.BUS_COPPER =>
    (s, if s.memSrc (addr >>> 16) ≠ MemorySource.MEM_UNMAPPED
        then some (WriteTarget.chipW, addr, value) else none)
  | BusOwner.BUS_BLITTER =>
    (s, if s.memSrc (addr >>> 16) ≠ MemorySource.MEM_UNMAPPED
        then some (WriteTarget.chipW, addr, value) else none)
  | BusOwner.BUS_CPU =>
    match s.memSrc (addr >>> 16) with
    | MemorySource.MEM_UNMAPPED => ({ s with dataBus := value }, none)
    | MemorySource.MEM_CHIP =>
      ({ s with dataBus := value }, some (WriteTarget.chipW, addr, value))
    | MemorySource.MEM_FAST => (s, some (WriteTarget.fastW, addr, value))
    | MemorySource.MEM_CIA =>
      ({ s with dataBus := value }, some (WriteTarget.ciaW, addr, value))
    | MemorySource.MEM_SLOW =>
      ({ s with dataBus := value }, some (WriteTarget.slowW, addr, value))
    | MemorySource.MEM_RTC =>
      ({ s with dataBus := value }, some (WriteTarget.rtcW, addr, value))
    | MemorySource.MEM_OCS =>
      ({ s with dataBus := value }, some (WriteTarget.ocsW, addr, value))
    | MemorySource.MEM_AUTOCONF =>
      ({ s with dataBus := value }, some (WriteTarget.autoW, addr, value))
    | MemorySource.MEM_ROM => (s, some (WriteTarget.romW, addr, value))
    | MemorySource.MEM_WOM => (s, some (WriteTarget.womW, addr, value))
    | MemorySource.MEM_EXT => (s, none)
  | BusOwner.BUS_NONE => (s, none)

/-- All-chip memory state whose chip oracle returns the address it was
asked for, separating accesses at different addresses. -/
def chipEchoState : Mem16State :=
  { ocsAllState with memSrc := fun _ => MemorySource.MEM_CHIP, chipRead := fun a => a }

/-- C5 (counterexample): a 16-bit CPU read at the odd address 1 reads
chip memory at address 1, not at the even address 1 & ~1 = 0: the low
address bit is not cleared before the access proceeds. -/
theorem peek16_odd_not_even :
    (peek16 BusOwner.BUS_CPU chipEchoState 1).1 = 1 ∧
    (peek16 BusOwner.BUS_CPU chipEchoState (1 &&& 0xFFFFFE)).1 = 0 := by
  constructor <;> rfl

/-- C5 (amended): a 16-bit access at an odd address reports a warning
and proceeds — without fault injection — at addr & 0xFFFFFF, whose low
bit is still set: on a chip page, peek16 reads and poke16 writes at the
odd address itself, not at addr & ~1. -/
theorem peek16_poke16_odd (s : Mem16State) (addr value : Nat)
    (hodd : addr % 2 = 1) :
    (addr &&& 0xFFFFFF) % 2 = 1 ∧
    (s.memSrc ((addr &&& 0xFFFFFF) >>> 16) = MemorySource.MEM_CHIP →
      (peek16 BusOwner.BUS_CPU s addr).1 = s.chipRead (addr &&& 0xFFFFFF) ∧
      (poke16 BusOwner.BUS_CPU s addr value).2
          = some (WriteTarget.chipW, addr &&& 0xFFFFFF, value)) := by
  constructor
  · rw [show (0xFFFFFF : Nat) = 2 ^ 24 - 1 from rfl,
        Nat.and_pow_two_sub_one_eq_mod]
    rw [Nat.mod_mod_of_dvd addr (by norm_num : (2 : Nat) ∣ 2 ^ 24)]
    exact hodd
  · intro hchip
    constructor
    · simp only [peek16, hchip]
    · simp only [poke16, hchip]

/-- Witness for C5 (amended) at address 1 on the all-chip state. -/
theorem peek16_poke16_odd_witness :
    (1 &&& 0xFFFFFF) % 2 = 1 ∧
    (peek16 BusOwner.BUS_CPU chipEchoState 1).1 = chipEchoState.chipRead (1 &&& 0xFFFFFF) := by
  have h := peek16_poke16_odd chipEchoState 1 0 (by norm_num)
  exact ⟨h.1, (h.2 rfl).1⟩

/-! ### Denise (src/Amiga/Computer/Denise/Denise.cpp) -/

/-- Modelled from the spec: the RegisterChange record {triggerPixel:
i32, addr: u16, value: u16} and its recorder, whose add method appends
in insertion order; the struct and the recorder class are declared in a
header outside the inspected tree. The trigger pixel is signed. -/
structure RegChange where
  trigger : Int
  addr : Nat
  value : Nat
deriving DecidableEq

/-- Poke sources distinguishing CPU and Copper register writes. -/
inductive PokeSource where
  | POKE_CPU
  | POKE_COPPER
deriving DecidableEq

/-- Bit macro SET_BIT(x, nr): x |= (1 << nr). -/
def setBitM (x nr : Nat) : Nat := x ||| (1 <<< nr)

/-- Bit macro CLR_BIT(x, nr) on the uint8_t registers armed and attach:
x &= ~(1 << nr), the complement taken at the register's 8-bit width. -/
def clrBitM (x nr : Nat) : Nat := x &&& (0xFF ^^^ (1 <<< nr))

/-- Bit macro GET_BIT(x, nr) as a Bool. -/
def getBitM (x nr : Nat) : Bool := x.testBit nr

/-- Bit macro WRITE_BIT(x, nr, b). -/
def writeBitM (x nr : Nat) (b : Bool) : Nat :=
  if b then setBitM x nr else clrBitM x nr

/-- Slice of Denise and Agnus state touched by the register pokes under
study: sprite registers, the armed/wasArmed/attach bitmasks, the
collision data register, the horizontal beam position agnus.pos.h, and
the recorded sprite and colour register changes. The debugger info
updates guarded by agnus.pos.v == 26 in the source only copy values
into the inspection struct and are outside this slice. -/
structure DeniseState where
  sprpos : Nat → Nat
  sprctl : Nat → Nat
  sprdata : Nat → Nat
  sprdatb : Nat → Nat
  armed : Nat
  wasArmed : Nat
  attach : Nat
  clxdat : Nat
  hpos : Nat
  sprRegChanges : List RegChange
  colRegChanges : List RegChange

/-- Internal register-change identifiers REG_SPR0CTL and REG_SPR0DATA
(consecutive per sprite in the source enum; the concrete numeric values
live in a header outside the inspected tree and are immaterial here). -/
def REG_SPR0CTL : Nat := 0x20

def REG_SPR0DATA : Nat := 0x30

/-- Denise::pokeSPRxDATA: stores the data word, arms sprite x, and
records the register change at pixel 4 * hpos. -/
def pokeSPRxDATA (x value : Nat) (d : DeniseState) : DeniseState :=
  { d with
    sprdata := fun j => if j = x then value else d.sprdata j
    armed := setBitM d.armed x
    wasArmed := setBitM d.wasArmed x
    sprRegChanges :=
      d.sprRegChanges ++ [⟨4 * (d.hpos : Int), REG_SPR0DATA + x, value⟩] }

/-- Denise::pokeSPRxCTL: stores the control word, copies bit 7 of the
value into the attach mask, disarms sprite x, and records the register
change at pixel 4 * hpos. -/
def pokeSPRxCTL (x value : Nat) (d : DeniseState) : DeniseState :=
  { d with
    sprctl := fun j => if j = x then value else d.sprctl j
    attach := writeBitM d.attach x (getBitM value 7)
    armed := clrBitM d.armed x
    sprRegChanges :=
      d.sprRegChanges ++ [⟨4 * (d.hpos : Int), REG_SPR0CTL + x, value⟩] }

/-- Denise::peekCLXDAT: returns clxdat | 0x8000 and clears the
register. -/
def peekCLXDAT (d : DeniseState) : Nat × DeniseState :=
  (d.clxdat ||| 0x8000, { d with clxdat := 0 })

/-- Denise::pokeCOLORxx, templated on the poke source: records the
change of colour register reg = 0x180 + 2 * xx at pixel 4 * hpos when
the source is the Copper or the beam is at the start of the line, and
at pixel 4 * (hpos - 1) otherwise. -/
def pokeCOLORxx (src : PokeSource) (xx value : Nat) (d : DeniseState) : DeniseState :=
  let reg := 0x180 + 2 * xx
  if src = PokeSource.POKE_COPPER ∨ d.hpos = 0 then
    { d with colRegChanges := d.colRegChanges ++ [⟨4 * (d.hpos : Int), reg, value⟩] }
  else
    { d with colRegChanges := d.colRegChanges ++ [⟨4 * ((d.hpos : Int) - 1), reg, value⟩] }

/-- Denise state with cleared registers and the beam at the line start,
used in witnesses and counterexamples. -/
def denise0 : DeniseState :=
  { sprpos := fun _ => 0, sprctl := fun _ => 0, sprdata := fun _ => 0
    sprdatb := fun _ => 0, armed := 0, wasArmed := 0, attach := 0
    clxdat := 0, hpos := 0, sprRegChanges := [], colRegChanges := [] }

/-- C8: reading CLXDAT returns the collision bits with bit 15 set and
clears the register, so an immediately following read with no
intervening collision returns exactly 0x8000. -/
theorem peekCLXDAT_destructive (d : DeniseState) :
    (peekCLXDAT d).1 = d.clxdat ||| 0x8000 ∧
    (peekCLXDAT (peekCLXDAT d).2).1 = 0x8000 := by
  constructor
  · rfl
  · simp [peekCLXDAT]

/-- C9: writing SPRxDATA sets bit x of the armed mask and a following
write of SPRxCTL clears it, so the DATA-then-CTL sequence always leaves
sprite x disarmed. -/
theorem sprite_arm_disarm (d : DeniseState) (x vd vc : Nat) (hx : x < 8) :
    ((pokeSPRxDATA x vd d).armed.testBit x = true) ∧
    ((pokeSPRxCTL x vc (pokeSPRxDATA x vd d)).armed.testBit x = false) := by
  have hsh : (1 <<< x).testBit x = true := by
    rw [Nat.testBit_shiftLeft]
    simp
  constructor
  · simp only [pokeSPRxDATA, setBitM, Nat.testBit_or, hsh, Bool.or_true]
  · simp only [pokeSPRxCTL, clrBitM, Nat.testBit_and, Nat.testBit_xor]
    have hff : Nat.testBit 0xFF x = true := by
      have ht := Nat.testBit_two_pow_sub_one 8 x
      norm_num at ht
      rw [ht]
      simp [hx]
    rw [hff, hsh]
    simp

/-- Witness for C9 at sprite 5. -/
theorem sprite_arm_disarm_witness :
    ((pokeSPRxDATA 5 0xAAAA denise0).armed.testBit 5 = true) ∧
    ((pokeSPRxCTL 5 0x1234 (pokeSPRxDATA 5 0xAAAA denise0)).armed.testBit 5 = false) :=
  sprite_arm_disarm denise0 5 0xAAAA 0x1234 (by norm_num)

/-- C6 (amended): a colour register poke from the Copper is recorded at
the current pixel position 4 * h; a CPU poke is recorded one pixel
position earlier at 4 * (h - 1) whenever h is nonzero, but at 4 * 0 = 0
when the beam is at the start of the line (h = 0). -/
theorem pokeCOLOR_trigger (src : PokeSource) (xx value : Nat) (d : DeniseState) :
    (src = PokeSource.POKE_COPPER →
      (pokeCOLORxx src xx value d).colRegChanges
        = d.colRegChanges ++ [⟨4 * (d.hpos : Int), 0x180 + 2 * xx, value⟩]) ∧
    (src = PokeSource.POKE_CPU → d.hpos ≠ 0 →
      (pokeCOLORxx src xx value d).colRegChanges
        = d.colRegChanges ++ [⟨4 * ((d.hpos : Int) - 1), 0x180 + 2 * xx, value⟩]) ∧
    (src = PokeSource.POKE_CPU → d.hpos = 0 →
      (pokeCOLORxx src xx value d).colRegChanges
        = d.colRegChanges ++ [⟨0, 0x180 + 2 * xx, value⟩]) := by
  refine ⟨fun hc => ?_, fun hc hh => ?_, fun hc hh => ?_⟩
  · simp [pokeCOLORxx, hc]
  · rw [hc]
    simp only [pokeCOLORxx]
    rw [if_neg]
    simp [hh]
  · rw [hc]
    simp only [pokeCOLORxx]
    rw [if_pos (Or.inr hh)]
    simp [hh]

/-- Witness for C6 (amended): a Copper poke at h = 0 lands at pixel 0;
a CPU poke at h = 7 lands at pixel 24. -/
theorem pokeCOLOR_trigger_witness :
    (pokeCOLORxx PokeSource.POKE_COPPER 0 0x0F00 denise0).colRegChanges
      = [⟨0, 0x180, 0x0F00⟩] ∧
    (pokeCOLORxx PokeSource.POKE_CPU 0 0x0F00 { denise0 with hpos := 7 }).colRegChanges
      = [⟨24, 0x180, 0x0F00⟩] := by
  constructor
  · have h := (pokeCOLOR_trigger PokeSource.POKE_COPPER 0 0x0F00 denise0).1 rfl
    rw [h]
    rfl
  · have h := (pokeCOLOR_trigger PokeSource.POKE_CPU 0 0x0F00
      { denise0 with hpos := 7 }).2.1 rfl (by norm_num)
    rw [h]
    rfl

/-- C6 (counterexample): a CPU poke of COLOR00 with the beam at h = 0
is recorded at pixel 0, not one pixel earlier at 4 * (0 - 1) = -4 as
the claim demands for CPU pokes. -/
theorem pokeCOLOR_cpu_at_line_start :
    (pokeCOLORxx PokeSource.POKE_CPU 0 0x0F00 denise0).colRegChanges
      = [⟨0, 0x180, 0x0F00⟩] ∧
    (0 : Int) ≠ 4 * ((denise0.hpos : Int) - 1) := by
  constructor
  · rfl
  · decide

/-! ### Blitter (src/Amiga/Computer/Agnus/SlowBlitter.cpp) -/

/-- Slice of the Blitter state involved in channel-A masking: the blit
width bltsizeW, the first- and last-word masks, the X counter and the
word mask it determines, the channel-A data path registers anew, aold,
ahold, the shift amount ash and the descending flag of BLTCON1. -/
structure BlitterState where
  bltsizeW : Nat
  bltafwm : Nat
  bltalwm : Nat
  xCounter : Nat
  mask : Nat
  anew : Nat
  aold : Nat
  ahold : Nat
  ash : Nat
  desc : Bool

/-- Blitter::setXCounter: stores the new X counter and recomputes the
word mask for the iteration: 0xFFFF, AND-ed with bltafwm when the
counter equals bltsizeW (first word of a row) and with bltalwm when it
equals 1 (last word of a row). -/
def setXCounter (b : BlitterState) (value : Nat) : BlitterState :=
  let b := { b with xCounter := value }
  let mask := 0xFFFF
  let mask := if b.xCounter = b.bltsizeW then mask &&& b.bltafwm else mask
  let mask := if b.xCounter = 1 then mask &&& b.bltalwm else mask
  { b with mask := mask }

/-- The HOLD_A action of Blitter::exec: the barrel shifter consumes
anew AND-ed with the word mask, concatenated with aold in the order
given by the descending flag, shifts by ash, and the masked word
becomes the new aold. The hold register is 16 bits wide. -/
def holdA (b : BlitterState) : BlitterState :=
  let masked := b.anew &&& b.mask
  let ahold :=
    if b.desc then (((masked <<< 16) ||| b.aold) >>> b.ash) &&& 0xFFFF
    else (((b.aold <<< 16) ||| masked) >>> b.ash) &&& 0xFFFF
  { b with ahold := ahold, aold := masked }

/-- AND with 0xFFFF is absorbed by a preceding AND with 0xFFFF. -/
theorem and_ffff_absorb (w : Nat) : (0xFFFF &&& w) &&& 0xFFFF = 0xFFFF &&& w := by
  rw [Nat.and_assoc, Nat.and_comm w 0xFFFF, ← Nat.and_assoc,
      show ((0xFFFF : Nat) &&& 0xFFFF) = 0xFFFF from rfl]

/-- C7: the word mask applied to channel A data (in HOLD_A, via
anew AND mask) equals 0xFFFF AND-ed with the first-word mask exactly
when the X counter equals bltsizeW and AND-ed with the last-word mask
exactly when the X counter equals 1; both masks apply when
bltsizeW = 1. -/
theorem blitter_word_mask (b : BlitterState) (value : Nat) :
    (setXCounter b value).mask
        = 0xFFFF &&& (if value = b.bltsizeW then b.bltafwm else 0xFFFF)
                 &&& (if value = 1 then b.bltalwm else 0xFFFF) ∧
    (holdA b).aold = b.anew &&& b.mask := by
  refine ⟨?_, rfl⟩
  by_cases h1 : value = b.bltsizeW <;> by_cases h2 : value = 1
  · have h3 : b.bltsizeW = 1 := h1.symm.trans h2
    simp [setXCounter, h1, h2, h3]
  · have h3 : b.bltsizeW ≠ 1 := fun h => h2 (h1.trans h)
    simp [setXCounter, h1, h2, h3, and_ffff_absorb]
  · have h3 : (1 : Nat) ≠ b.bltsizeW := fun h => h1 (h2.trans h)
    simp [setXCounter, h1, h2, h3]
  · simp [setXCounter, h1, h2]

end VAmiga
